import Mathlib

/-!
Shallow embedding of the NCCL/RCCL performance-tuning engine
(`src/graph/tuning.cc`): thread-count resolution, enable/disable list
parsing, the init-time bandwidth/latency threshold builder
`ncclTopoSetThresholds`, and the dispatch-time estimator
`ncclTopoGetAlgoTime`.

Machine floats of the source are modelled as exact rationals; C integers
as `Int`/`Nat` (all arithmetic in the source stays far from overflow).
Logging (`WARN`/`INFO`) is observational and omitted.
-/

namespace Tuning

/-- Result codes of the library.  Only `ncclSuccess` is produced by the
functions modelled here; a second constructor keeps "returns success"
non-vacuous. -/
inductive NcclResult where
  | ncclSuccess
  | ncclInternalError
deriving DecidableEq, Repr

export NcclResult (ncclSuccess)

/-- Collective kinds, in source order: Broadcast, Reduce, AllGather,
ReduceScatter, AllReduce (`NCCL_NUM_FUNCTIONS = 5`). -/
abbrev CollKind := Fin 5

def ncclCollBroadcast : CollKind := 0
def ncclCollReduce : CollKind := 1
def ncclCollAllGather : CollKind := 2
def ncclCollReduceScatter : CollKind := 3
def ncclCollAllReduce : CollKind := 4

/-- Algorithms, in source order: Tree, Ring, CollNet (`NCCL_NUM_ALGORITHMS = 3`). -/
abbrev Algo := Fin 3

def NCCL_ALGO_TREE : Algo := 0
def NCCL_ALGO_RING : Algo := 1
def NCCL_ALGO_COLLNET : Algo := 2

/-- Protocols, in source order: LL, LL128, Simple (`NCCL_NUM_PROTOCOLS = 3`). -/
abbrev Proto := Fin 3

def NCCL_PROTO_LL : Proto := 0
def NCCL_PROTO_LL128 : Proto := 1
def NCCL_PROTO_SIMPLE : Proto := 2

/-- Hardware classes: NVLink = 0, PCI = 1, Network = 2. -/
abbrev HwClass := Fin 3

def NCCL_HW_NVLINK : HwClass := 0
def NCCL_HW_PCI : HwClass := 1
def NCCL_HW_NET : HwClass := 2

/-- Modelled from the spec: numeric constants defined in headers
(`devcomm.h`, `topo.h`, `core.h`) that are not part of the provided
source.  The spec describes them only abstractly (warp width, thread
ceilings, a reference PCIe width, per-protocol byte-threshold defaults,
link-class codes), so the embedding keeps them as parameters; claims are
proved for every instantiation. -/
structure HwConsts where
  warpSize : Int
  maxNthreads : Int
  ll128MaxNthreads : Int
  pciWidth : ℚ
  llThreadThreshold : Int
  ll128ThreadThreshold : Int
  simpleThreadThreshold : Int
  linkNVL : Nat
  linkPCI : Nat

/-- `getNthreads` (tuning.cc:16): validate/clamp an environment-supplied
thread count.  Argument order follows the source (`env, min, max, def`)
plus the `WARP_SIZE` constant made explicit. -/
def getNthreads (env mn mx df warp : Int) : Int :=
  if env > 0 then
    if env % warp ≠ 0 then mx
    else if env > mx then mx
    else if env < mn then mn
    else env
  else df

/-- `strcasecmp` equality on C strings, modelled on character lists. -/
def ciEq (s t : List Char) : Bool :=
  s.map Char.toLower == t.map Char.toLower

/-- `strtok_r(str, ",")` tokenisation: comma-separated pieces, with runs
of delimiters collapsed (strtok never yields an empty token). -/
def strtokComma (s : List Char) : List (List Char) :=
  (s.splitOn ',').filter (fun t => t ≠ [])

/-- Inner loop of `parseList` (tuning.cc:47): for one token, set every
vocabulary position whose entry matches case-insensitively. -/
def parseListStep (elems : List (List Char)) (set : Int)
    (list : List Int) (token : List Char) : List Int :=
  List.zipWith (fun e v => if ciEq token e then set else v) elems list

/-- `parseList` (tuning.cc:35): parse an enable/disable list over a fixed
vocabulary.  A leading `^` flips the baseline to all-enabled and listed
names turn entries off; otherwise baseline is all-disabled and listed
names turn entries on.  Returns the `int list[]` the C function fills
(1 = member, 0 = not).  The C `strdup` allocation failure is not
modelled; the parse itself always succeeds. -/
def parseList (str : List Char) (elems : List (List Char)) : List Int :=
  if str.head? = some '^' then
    (strtokComma str.tail).foldl (parseListStep elems 0) (elems.map fun _ => (1 : Int))
  else
    (strtokComma str).foldl (parseListStep elems 1) (elems.map fun _ => (0 : Int))

/-- Protocol name vocabulary `ncclProtoStr` (tuning.cc:57). -/
def ncclProtoStr : List (List Char) :=
  [['L', 'L'], ['L', 'L', '1', '2', '8'], ['S', 'i', 'm', 'p', 'l', 'e']]

/-- Algorithm name vocabulary `ncclAlgoStr` (tuning.cc:56). -/
def ncclAlgoStr : List (List Char) :=
  [['T', 'r', 'e', 'e'], ['R', 'i', 'n', 'g'],
   ['C', 'o', 'l', 'l', 'N', 'e', 't']]

/-- Base latencies in µs, `baseLat[algo][proto]` (tuning.cc:61). -/
def baseLat : Algo → Proto → ℚ :=
  ![![379/10, 379/10, 404/10], ![205/10, 205/10, 279/10], ![379/10, 379/10, 404/10]]

/-- Hardware latencies in µs, `hwLat[hw][algo][proto]` (tuning.cc:68). -/
def hwLat : HwClass → Algo → Proto → ℚ :=
  ![![![12/10, 12/10, 38/10], ![23/10, 23/10, 27/10], ![12/10, 12/10, 38/10]],
    ![![22/10, 22/10, 57/10], ![13/10, 13/10, 19/10], ![22/10, 22/10, 57/10]],
    ![![98/10, 98/10, 195/10], ![20/10, 20/10, 45/10], ![98/10, 98/10, 195/10]]]

/-- LL128 max bandwidth per collective, `ll128MaxBw` (tuning.cc:78). -/
def ll128MaxBw : CollKind → ℚ := ![113, 72, 110, 91, 100]

/-- Tree size-bucketed correction factors, `treeCorrectionFactor[proto]`
(tuning.cc:233); 22 entries per protocol, powers of two from 64 B. -/
def treeCorrectionRows : Proto → List ℚ :=
  ![[1, 1, 1, 1, 1, 1, 1, 84/100, 49/100, 42/100, 60/100, 75/100, 87/100,
     94/100, 94/100, 99/100, 1, 1, 1, 1, 1, 1],
    [1, 1, 1, 1, 1, 1, 1, 84/100, 49/100, 42/100, 60/100, 75/100, 87/100,
     94/100, 94/100, 99/100, 1, 1, 1, 1, 1, 1],
    [1, 1, 1, 1, 1, 1, 41/100, 27/100, 25/100, 39/100, 46/100, 72/100,
     76/100, 87/100, 92/100, 97/100, 1, 1, 1, 1, 1, 1]]

/-- Ring size-bucketed correction factors, `ringCorrectionFactor[proto]`
(tuning.cc:239). -/
def ringCorrectionRows : Proto → List ℚ :=
  ![[1, 1, 1, 1, 1, 1, 25/100, 41/100, 55/100, 56/100, 78/100, 94/100,
     1, 1, 1, 1, 1, 1, 1, 1, 1, 1],
    [1, 1, 1, 1, 1, 1, 25/100, 41/100, 55/100, 56/100, 78/100, 94/100,
     1, 1, 1, 1, 1, 1, 1, 1, 1, 1],
    [1, 1, 1, 1, 1, 1, 4/100, 8/100, 9/100, 9/100, 11/100, 13/100,
     25/100, 40/100, 59/100, 76/100, 86/100, 1, 1, 1, 1, 1]]

/-- `treeCorrectionFactor[p][i]`; total with default 1 (the source only
indexes it under the guard `i < 22`, so the default is never observed). -/
def treeCorrectionFactor (p : Proto) (i : Nat) : ℚ :=
  (treeCorrectionRows p).getD i 1

/-- `ringCorrectionFactor[p][i]`; total with default 1 (the source only
indexes it under the guard `i < 22`). -/
def ringCorrectionFactor (p : Proto) (i : Nat) : ℚ :=
  (ringCorrectionRows p).getD i 1

/-- `log2i`: floor of log2 on nonnegative integers, with `log2i 0 = 0`
(the helper lives in a header outside the provided source; the spec fixes
it as `floor(log2(·))`, and `Nat.log2` matches that with the same value 0
at inputs 0 and 1). -/
def log2i (n : Nat) : Nat := Nat.log2 n

/-- `struct ncclTopoGraph` — the fields read by this file: channel count,
intra- and inter-node speeds and link classes, and the
same-channels flag. -/
structure NcclTopoGraph where
  nChannels : Nat
  speedIntra : ℚ
  speedInter : ℚ
  typeIntra : Nat
  typeInter : Nat
  sameChannels : Bool

/-- The communicator fields read and written by this file. -/
structure NcclComm where
  rank : Nat
  nRanks : Nat
  nNodes : Nat
  bandwidths : CollKind → Algo → Proto → ℚ
  latencies : CollKind → Algo → Proto → ℚ
  maxThreads : Algo → Proto → Int
  threadThresholds : Algo → Proto → Int

/-- Environment variables consulted during table construction, loaded
once and threaded explicitly (`NCCL_NTHREADS`, `NCCL_LL128_NTHREADS`,
`NCCL_PROTO`, `NCCL_ALGO`, `NCCL_THREAD_THRESHOLDS`).  The thread
threshold string is modelled by the list of integers its `sscanf`
produces (at most six are ever read). -/
structure TuningEnv where
  nthreads : Int
  ll128Nthreads : Int
  protoList : Option (List Char)
  algoList : Option (List Char)
  threadThresholdList : Option (List Int)

/-- Default environment: both thread-count knobs at their `NCCL_PARAM`
default -2, no override strings (tuning.cc:13-14). -/
def defaultEnv : TuningEnv :=
  { nthreads := -2, ll128Nthreads := -2, protoList := none,
    algoList := none, threadThresholdList := none }

/-- `graphs[]` (tuning.cc:93): per-algorithm topology graph. -/
def graphsOf (treeGraph ringGraph collNetGraph : NcclTopoGraph) :
    Algo → NcclTopoGraph :=
  ![treeGraph, ringGraph, collNetGraph]

/-- `intraHw[a]` (tuning.cc:95). -/
def intraHwOf (K : HwConsts) (g : NcclTopoGraph) : HwClass :=
  if g.typeIntra = K.linkNVL then NCCL_HW_NVLINK else NCCL_HW_PCI

/-- `hw[a]` (tuning.cc:96). -/
def hwOf (K : HwConsts) (nNodes : Nat) (g : NcclTopoGraph) : HwClass :=
  if nNodes = 1 then intraHwOf K g else NCCL_HW_NET

/-- `nsteps` (tuning.cc:99-101). -/
def nstepsOf (nRanks : Nat) (coll : CollKind) : Nat :=
  if coll = ncclCollAllReduce then 2 * (nRanks - 1)
  else if coll = ncclCollReduceScatter ∨ coll = ncclCollAllGather then nRanks - 1
  else nRanks

/-- Bus bandwidth with the model refinements applied (tuning.cc:107-118):
raw `nChannels × speed`, then the protocol/algorithm derating chain. -/
def busBwOf (nNodes : Nat) (graphs : Algo → NcclTopoGraph)
    (coll : CollKind) (a : Algo) (p : Proto) : ℚ :=
  let speed := if nNodes ≤ 2 ∨ a = NCCL_ALGO_COLLNET
    then (graphs a).speedIntra else (graphs a).speedInter
  let b0 := (graphs a).nChannels * speed
  let b1 := if a = NCCL_ALGO_RING ∧ p = NCCL_PROTO_LL then b0 * (1/5) else b0
  let b2 := if a = NCCL_ALGO_RING ∧ p = NCCL_PROTO_LL128
    then min (b1 * (120/128)) (ll128MaxBw coll) else b1
  let b3 := if a = NCCL_ALGO_TREE
    then min (b2 * (27/100)) (if nNodes > 1 then 70 else 90) else b2
  let b4 := if a = NCCL_ALGO_TREE ∧ p = NCCL_PROTO_LL then b3 * (10/23) else b3
  let b5 := if a = NCCL_ALGO_TREE ∧ p = NCCL_PROTO_LL128 then b4 * (7/9) else b4
  let b6 := if a = NCCL_ALGO_COLLNET then b5 * (9/10) else b5
  let b7 := if a = NCCL_ALGO_COLLNET ∧ p = NCCL_PROTO_LL then b6 * (1/6) else b6
  if a = NCCL_ALGO_COLLNET ∧ p = NCCL_PROTO_LL128 then 0 else b7

/-- Bus-to-algorithm bandwidth ratio (tuning.cc:121). -/
def ratioOf (nRanks : Nat) (coll : CollKind) (a : Algo) : ℚ :=
  if a ≠ NCCL_ALGO_RING then 1/2 else (nRanks : ℚ) / (nstepsOf nRanks coll)

/-- Latency model for one populated cell (tuning.cc:124-147).  The ring
branch reads `ringGraph->sameChannels`, i.e. `(graphs NCCL_ALGO_RING)`;
`nRanks/nNodes` is C integer division. -/
def latOf (K : HwConsts) (nRanks nNodes : Nat)
    (graphs : Algo → NcclTopoGraph) (coll : CollKind) (a : Algo) (p : Proto) : ℚ :=
  let base := baseLat a p
  if a = NCCL_ALGO_RING then
    let lat := hwLat (hwOf K nNodes (graphs a)) a p
    if coll = ncclCollReduce ∨ coll = ncclCollBroadcast then
      if (graphs NCCL_ALGO_RING).sameChannels then base + lat
      else
        let lat2 := if p = NCCL_PROTO_SIMPLE
          then hwLat (hwOf K nNodes (graphs a)) NCCL_ALGO_TREE p else lat
        base + (nstepsOf nRanks coll) * lat2
    else base + (nstepsOf nRanks coll) * lat
  else if a = NCCL_ALGO_TREE then
    let intraLat := hwLat (intraHwOf K (graphs a)) a p
    let interLat := hwLat NCCL_HW_NET a p
    base + 2 * ((((nRanks / nNodes : Nat) : ℚ) - 1) * intraLat
      + (log2i nNodes : ℚ) * interLat)
  else
    let intraLat := hwLat (intraHwOf K (graphs a)) a p
    let interLat := hwLat NCCL_HW_NET a p
    base + 2 * ((((nRanks / nNodes : Nat) : ℚ) - 1)) * intraLat + interLat

/-- Whether the main loop populates cell `(coll, a)` — the skip condition
at tuning.cc:104: every algorithm applies to AllReduce, only Ring applies
to the other collectives. -/
def algoApplies (coll : CollKind) (a : Algo) : Prop :=
  ¬(coll ≠ ncclCollAllReduce ∧ a ≠ NCCL_ALGO_RING)

instance (coll : CollKind) (a : Algo) : Decidable (algoApplies coll a) :=
  instDecidableNot

/-- Bandwidth table after the model loop (tuning.cc:98-122): populated
cells get `busBw × ratio`, skipped cells keep their previous value. -/
def builtBandwidths (nRanks nNodes : Nat) (graphs : Algo → NcclTopoGraph)
    (bw0 : CollKind → Algo → Proto → ℚ) : CollKind → Algo → Proto → ℚ :=
  fun coll a p =>
    if algoApplies coll a
    then busBwOf nNodes graphs coll a p * ratioOf nRanks coll a
    else bw0 coll a p

/-- Latency table after the model loop (tuning.cc:124-147). -/
def builtLatencies (K : HwConsts) (nRanks nNodes : Nat)
    (graphs : Algo → NcclTopoGraph)
    (lat0 : CollKind → Algo → Proto → ℚ) : CollKind → Algo → Proto → ℚ :=
  fun coll a p =>
    if algoApplies coll a
    then latOf K nRanks nNodes graphs coll a p
    else lat0 coll a p

/-- `protoEnable` after the optional `NCCL_PROTO` parse (tuning.cc:154,
157-158): defaults `{1, 2, 1}` (LL128 in auto-detect state 2), wholly
replaced by the parse result when the variable is set. -/
def protoEnableOf (env : TuningEnv) (p : Proto) : Int :=
  match env.protoList with
  | none => (![1, 2, 1] : Fin 3 → Int) p
  | some s => (parseList s ncclProtoStr).getD p 0

/-- `algoEnable` after the optional `NCCL_ALGO` parse (tuning.cc:155,
159-160): defaults all 1. -/
def algoEnableOf (env : TuningEnv) (a : Algo) : Int :=
  match env.algoList with
  | none => 1
  | some s => (parseList s ncclAlgoStr).getD a 0

/-- `pEnable` for one cell (tuning.cc:163-167): the auto-detect state 2
on LL128 resolves to enabled exactly when the graph's inter-node class is
at most PCI, its intra-node class is NVLink, and both compute-capability
bounds equal 70. -/
def resolvedProtoEnable (K : HwConsts) (env : TuningEnv)
    (minCompCap maxCompCap : Int) (graphs : Algo → NcclTopoGraph)
    (a : Algo) (p : Proto) : Int :=
  let pe := protoEnableOf env p
  if pe = 2 ∧ p = NCCL_PROTO_LL128 then
    if (graphs a).typeInter ≤ K.linkPCI ∧ (graphs a).typeIntra = K.linkNVL
        ∧ minCompCap = 70 ∧ maxCompCap = 70
    then 1 else 0
  else pe

/-- The enable/disable sweep (tuning.cc:162-169): a disabled protocol or
algorithm zeroes the bandwidth cell, otherwise it is kept. -/
def enabledBandwidths (K : HwConsts) (env : TuningEnv)
    (minCompCap maxCompCap : Int) (graphs : Algo → NcclTopoGraph)
    (bw : CollKind → Algo → Proto → ℚ) : CollKind → Algo → Proto → ℚ :=
  fun coll a p =>
    if resolvedProtoEnable K env minCompCap maxCompCap graphs a p = 0
        ∨ algoEnableOf env a = 0
    then 0 else bw coll a p

/-- Computed thread-threshold defaults (tuning.cc:199-204): per-protocol
constants, with the Ring/LL entry scaled by the rank count. -/
def defaultThreadThresholds (K : HwConsts) (nRanks : Nat)
    (a : Algo) (p : Proto) : Int :=
  let base := (![K.llThreadThreshold, K.ll128ThreadThreshold,
    K.simpleThreadThreshold] : Fin 3 → Int) p
  if a = NCCL_ALGO_RING ∧ p = NCCL_PROTO_LL then base * nRanks else base

/-- The `NCCL_THREAD_THRESHOLDS` override matrix `t` (tuning.cc:209-210):
`ssize_t t[NCCL_NUM_ALGORITHMS][NCCL_NUM_PROTOCOLS]` initialised with
only two rows of -2, so C aggregate initialisation zero-fills the third
(CollNet) row; `sscanf` then fills at most the first six slots (rows 0
and 1) from the string. -/
def overrideMatrix (vals : List Int) (a : Algo) (p : Proto) : Int :=
  if a.val = 2 then 0 else vals.getD (a.val * 3 + p.val) (-2)

/-- Thread thresholds after the optional env override (tuning.cc:207-216):
entries of `t` that are ≥ 0 replace the computed defaults. -/
def overrideThreadThresholds (env : TuningEnv)
    (tt : Algo → Proto → Int) : Algo → Proto → Int :=
  match env.threadThresholdList with
  | none => tt
  | some vals => fun a p =>
      if 0 ≤ overrideMatrix vals a p then overrideMatrix vals a p else tt a p

/-- Thread-ceiling resolution (tuning.cc:81-89): Ring/Simple uses a
default that depends on whether Ring's aggregate intra-node bandwidth
saturates the reference PCIe width; Tree/CollNet Simple and all LL cells
default to the maximum; LL128 cells use the dedicated knob with a
quarter-scaled minimum. -/
def maxThreadsOf (K : HwConsts) (env : TuningEnv)
    (ringGraph : NcclTopoGraph) (a : Algo) (p : Proto) : Int :=
  let simpleDefaultThreads :=
    if ringGraph.speedIntra * ringGraph.nChannels ≤ K.pciWidth
    then 256 else K.maxNthreads
  if p = NCCL_PROTO_SIMPLE then
    if a = NCCL_ALGO_RING then
      getNthreads env.nthreads (4 * K.warpSize) K.maxNthreads
        simpleDefaultThreads K.warpSize
    else
      getNthreads env.nthreads (4 * K.warpSize) K.maxNthreads
        K.maxNthreads K.warpSize
  else if p = NCCL_PROTO_LL then
    getNthreads env.nthreads (4 * K.warpSize) K.maxNthreads
      K.maxNthreads K.warpSize
  else
    getNthreads env.ll128Nthreads (K.ll128MaxNthreads / 4)
      K.ll128MaxNthreads K.ll128MaxNthreads K.warpSize

/-- `ncclTopoSetThresholds` (tuning.cc:80-229): resolve thread ceilings,
return early for a single-rank communicator, otherwise run the
bandwidth/latency model loop, the enable/disable sweep, and the
thread-threshold setup with its optional env override.  The diagnostic
`INFO` block (tuning.cc:171-196, 218-227) is observational and omitted. -/
def ncclTopoSetThresholds (K : HwConsts) (env : TuningEnv)
    (minCompCap maxCompCap : Int)
    (treeGraph ringGraph collNetGraph : NcclTopoGraph)
    (comm : NcclComm) : NcclResult × NcclComm :=
  let comm1 := { comm with maxThreads := maxThreadsOf K env ringGraph }
  if comm.nRanks ≤ 1 then (ncclSuccess, comm1)
  else
    let graphs := graphsOf treeGraph ringGraph collNetGraph
    let bw2 := builtBandwidths comm.nRanks comm.nNodes graphs comm.bandwidths
    let lat2 := builtLatencies K comm.nRanks comm.nNodes graphs comm.latencies
    let bw3 := enabledBandwidths K env minCompCap maxCompCap graphs bw2
    let tt := overrideThreadThresholds env
      (defaultThreadThresholds K comm.nRanks)
    (ncclSuccess,
      { comm1 with bandwidths := bw3, latencies := lat2, threadThresholds := tt })

/-- The size-bucketed bandwidth correction of `ncclTopoGetAlgoTime`
(tuning.cc:250-252), factored out: Tree and Ring scale the bandwidth by
their table entry when the bucket index is below 22. -/
def correctedBw (bw : ℚ) (a : Algo) (p : Proto) (nBytes : Nat) : ℚ :=
  let logSize := log2i (nBytes >>> 6)
  if a = NCCL_ALGO_TREE ∧ logSize < 22 then bw * treeCorrectionFactor p logSize
  else if a = NCCL_ALGO_RING ∧ logSize < 22 then bw * ringCorrectionFactor p logSize
  else bw

/-- `ncclTopoGetAlgoTime` (tuning.cc:245): the `struct ncclInfo` argument
contributes its communicator, collective kind and byte count, passed
directly.  Returns the status code and the value stored through the
`time` out-parameter. -/
def ncclTopoGetAlgoTime (comm : NcclComm) (coll : CollKind) (nBytes : Nat)
    (algorithm : Algo) (protocol : Proto) : NcclResult × ℚ :=
  let bw := comm.bandwidths coll algorithm protocol
  if bw = 0 then (ncclSuccess, -1)
  else
    (ncclSuccess,
      comm.latencies coll algorithm protocol
        + (nBytes : ℚ) / (1000 * correctedBw bw algorithm protocol nBytes))

/-- The size bucket exactly as the spec words it:
`sizeBucket = floor(log2(byteCount >> 6))` (with the source's `log2i`
convention of 0 at inputs 0 and 1). -/
def specSizeBucket (nBytes : Nat) : Nat := Nat.log2 (nBytes >>> 6)

/-- Corrected bandwidth as the spec words it: if the bucket is below 22,
multiply by the matching correction-table entry for Tree or Ring; no
correction for CollNet or for buckets at or beyond 22.  Kept separate
from `correctedBw` (which is transcribed from the source) so the two can
be compared. -/
def specCorrectedBw (bw : ℚ) (a : Algo) (p : Proto) (nBytes : Nat) : ℚ :=
  if specSizeBucket nBytes < 22 ∧ a = NCCL_ALGO_TREE then
    bw * treeCorrectionFactor p (specSizeBucket nBytes)
  else if specSizeBucket nBytes < 22 ∧ a = NCCL_ALGO_RING then
    bw * ringCorrectionFactor p (specSizeBucket nBytes)
  else bw

/-- The step count exactly as the spec words it: `2*(ranks-1)` for
AllReduce, `ranks-1` for ReduceScatter and AllGather, `ranks` otherwise. -/
def specNsteps (nRanks : Nat) (coll : CollKind) : Nat :=
  if coll = ncclCollAllReduce then 2 * (nRanks - 1)
  else if coll = ncclCollReduceScatter ∨ coll = ncclCollAllGather then nRanks - 1
  else nRanks

/-! Concrete sample inputs used by witnesses and counterexamples. -/

/-- Representative instantiation of the header constants (CUDA warp 64
would fit RCCL; the claims hold for every instantiation). -/
def sampleConsts : HwConsts :=
  { warpSize := 64, maxNthreads := 256, ll128MaxNthreads := 640,
    pciWidth := 12, llThreadThreshold := 8, ll128ThreadThreshold := 8,
    simpleThreadThreshold := 64, linkNVL := 1, linkPCI := 2 }

/-- A sample topology graph (2 channels, NVLink intra, PCI inter). -/
def sampleGraph : NcclTopoGraph :=
  { nChannels := 2, speedIntra := 24, speedInter := 12,
    typeIntra := 1, typeInter := 2, sameChannels := true }

/-- A four-rank, one-node communicator with empty tables. -/
def sampleComm4 : NcclComm :=
  { rank := 0, nRanks := 4, nNodes := 1,
    bandwidths := fun _ _ _ => 0, latencies := fun _ _ _ => 0,
    maxThreads := fun _ _ => 0, threadThresholds := fun _ _ => 0 }

/-- A single-rank communicator with nonzero tables (to observe frame
preservation). -/
def sampleComm1 : NcclComm :=
  { rank := 0, nRanks := 1, nNodes := 1,
    bandwidths := fun _ _ _ => 5, latencies := fun _ _ _ => 7,
    maxThreads := fun _ _ => 0, threadThresholds := fun _ _ => 0 }

/-- A communicator whose tables are directly chosen (bandwidth 1 GB/s,
latency 0) to exercise the estimator in isolation. -/
def cexComm : NcclComm :=
  { rank := 0, nRanks := 2, nNodes := 1,
    bandwidths := fun _ _ _ => 1, latencies := fun _ _ _ => 0,
    maxThreads := fun _ _ => 0, threadThresholds := fun _ _ => 0 }

/-- A communicator with one bandwidth cell zeroed. -/
def zeroBwComm : NcclComm :=
  { cexComm with bandwidths := fun _ _ _ => 0 }

/-- Environment supplying the protocol override string `"^LL128"`. -/
def envProtoNoLL128 : TuningEnv :=
  { defaultEnv with protoList := some ['^', 'L', 'L', '1', '2', '8'] }

/-- Environment supplying the thread-threshold override string
`"1000 2000 3000 4000 5000 6000"` (its `sscanf` reads those six values). -/
def envSixThresholds : TuningEnv :=
  { defaultEnv with threadThresholdList := some [1000, 2000, 3000, 4000, 5000, 6000] }

/-- The communicator produced by running the builder on `sampleComm4`
with the six-value thread-threshold override. -/
def overriddenComm : NcclComm :=
  (ncclTopoSetThresholds sampleConsts envSixThresholds 70 70
    sampleGraph sampleGraph sampleGraph sampleComm4).2

/-! Helper lemmas. -/

/-- `getD` of a list of positives with a positive default is positive. -/
lemma getD_pos_of_forall_pos (l : List ℚ) (i : Nat) (d : ℚ)
    (hd : 0 < d) (hl : ∀ x ∈ l, 0 < x) : 0 < l.getD i d := by
  induction l generalizing i with
  | nil => simpa [List.getD] using hd
  | cons x xs ih =>
    cases i with
    | zero => simpa [List.getD] using hl x (by simp)
    | succ j =>
      simpa [List.getD] using ih j (fun y hy => hl y (by simp [hy]))

/-- Every tree correction factor is positive. -/
lemma treeCorrectionFactor_pos (p : Proto) (i : Nat) :
    0 < treeCorrectionFactor p i := by
  refine getD_pos_of_forall_pos _ i 1 one_pos ?_
  fin_cases p <;> · intro x hx; fin_cases hx <;> norm_num

/-- Every ring correction factor is positive. -/
lemma ringCorrectionFactor_pos (p : Proto) (i : Nat) :
    0 < ringCorrectionFactor p i := by
  refine getD_pos_of_forall_pos _ i 1 one_pos ?_
  fin_cases p <;> · intro x hx; fin_cases hx <;> norm_num

/-- The corrected bandwidth of a positive bandwidth is positive. -/
lemma correctedBw_pos (bw : ℚ) (a : Algo) (p : Proto) (nBytes : Nat)
    (h : 0 < bw) : 0 < correctedBw bw a p nBytes := by
  simp only [correctedBw]
  split_ifs with h1 h2
  · exact mul_pos h (treeCorrectionFactor_pos p _)
  · exact mul_pos h (ringCorrectionFactor_pos p _)
  · exact h

/-- The corrected bandwidth of a nonzero bandwidth is nonzero. -/
lemma correctedBw_ne_zero (bw : ℚ) (a : Algo) (p : Proto) (nBytes : Nat)
    (h : bw ≠ 0) : correctedBw bw a p nBytes ≠ 0 := by
  simp only [correctedBw]
  split_ifs with h1 h2
  · exact mul_ne_zero h (ne_of_gt (treeCorrectionFactor_pos p _))
  · exact mul_ne_zero h (ne_of_gt (ringCorrectionFactor_pos p _))
  · exact h

/-- The corrected bandwidth depends on the byte count only through its
size bucket. -/
lemma correctedBw_congr (bw : ℚ) (a : Algo) (p : Proto) (n1 n2 : Nat)
    (h : Nat.log2 (n1 >>> 6) = Nat.log2 (n2 >>> 6)) :
    correctedBw bw a p n1 = correctedBw bw a p n2 := by
  unfold correctedBw log2i
  rw [h]

/-- Beyond bucket 22 no correction applies. -/
lemma correctedBw_of_large_bucket (bw : ℚ) (a : Algo) (p : Proto) (n : Nat)
    (h : 22 ≤ Nat.log2 (n >>> 6)) : correctedBw bw a p n = bw := by
  simp only [correctedBw, log2i]
  split_ifs with h1 h2 <;> first | rfl | omega

/-- The size bucket is monotone in the byte count. -/
lemma sizeBucket_mono (n1 n2 : Nat) (h : n1 ≤ n2) :
    Nat.log2 (n1 >>> 6) ≤ Nat.log2 (n2 >>> 6) := by
  have hs : n1 >>> 6 ≤ n2 >>> 6 := by
    simpa [Nat.shiftRight_eq_div_pow] using Nat.div_le_div_right (c := 2 ^ 6) h
  simpa [Nat.log2_eq_log_two] using Nat.log_mono_right hs

/-- Zipping a list against its own map collapses to a single map. -/
lemma zipWith_self_map {α β γ : Type} (l : List α) (f : α → β)
    (g : α → β → γ) :
    List.zipWith g l (l.map f) = l.map (fun e => g e (f e)) := by
  induction l with
  | nil => simp
  | cons x xs ih => simp [ih]

/-- `foldl` of the `parseList` inner loop over a map-shaped accumulator
stays map-shaped: each vocabulary entry ends at `set` exactly when some
token matches it. -/
lemma foldl_parseListStep (elems : List (List Char)) (st : Int)
    (toks : List (List Char)) (f : List Char → Int) :
    toks.foldl (parseListStep elems st) (elems.map f)
      = elems.map (fun e => if toks.any (fun t => ciEq t e) then st else f e) := by
  induction toks generalizing f with
  | nil => simp
  | cons t ts ih =>
    have hstep : parseListStep elems st (elems.map f) t
        = elems.map (fun e => if ciEq t e then st else f e) := by
      unfold parseListStep
      exact zipWith_self_map elems f (fun e v => if ciEq t e then st else v)
    rw [List.foldl_cons, hstep, ih]
    refine List.map_congr_left fun e he => ?_
    by_cases h1 : ciEq t e <;> by_cases h2 : ts.any (fun u => ciEq u e) <;>
      simp [h1, h2]

/-- Bucket of 8191 bytes: `8191 >> 6 = 127`, floor log2 gives 6. -/
lemma bucket8191 : Nat.log2 (8191 >>> 6) = 6 := by
  have h : (8191 : Nat) >>> 6 = 127 := by decide
  rw [h]; norm_num [Nat.log2]

/-- Bucket of 8192 bytes: `8192 >> 6 = 128`, floor log2 gives 7. -/
lemma bucket8192 : Nat.log2 (8192 >>> 6) = 7 := by
  have h : (8192 : Nat) >>> 6 = 128 := by decide
  rw [h]; norm_num [Nat.log2]

/-- The source-side corrected bandwidth agrees with the spec-side one. -/
lemma correctedBw_eq_spec (bw : ℚ) (a : Algo) (p : Proto) (nBytes : Nat) :
    correctedBw bw a p nBytes = specCorrectedBw bw a p nBytes := by
  simp only [correctedBw, specCorrectedBw, log2i, specSizeBucket]
  split_ifs <;> first | rfl | tauto

/-- The source-side step count agrees with the spec-side one. -/
lemma nstepsOf_eq_spec (nRanks : Nat) (coll : CollKind) :
    nstepsOf nRanks coll = specNsteps nRanks coll := rfl

/-! Claim theorems. -/

/-- C5: `getNthreads` returns the default when the environment value is
nonpositive; returns the value unchanged when it is a positive multiple
of the warp width inside `[min, max]`; returns `max` for a positive
non-multiple or a value above `max`; and returns `min` for a positive
multiple below `min` (with `min ≤ max`).  Being a total function it
never fails. -/
theorem getNthreads_resolution (env mn mx df warp : Int) :
    (env ≤ 0 → getNthreads env mn mx df warp = df)
  ∧ (0 < env → env % warp = 0 → mn ≤ env → env ≤ mx →
      getNthreads env mn mx df warp = env)
  ∧ (0 < env → (env % warp ≠ 0 ∨ mx < env) →
      getNthreads env mn mx df warp = mx)
  ∧ (0 < env → env % warp = 0 → env < mn → mn ≤ mx →
      getNthreads env mn mx df warp = mn) := by
  refine ⟨?_, ?_, ?_, ?_⟩ <;> intros <;> simp only [getNthreads] <;>
    split_ifs <;> first | rfl | omega | tauto

/-- C5 witness: 128 is a positive multiple of warp width 64 inside
`[64, 256]` and is returned unchanged. -/
theorem getNthreads_resolution_witness : getNthreads 128 64 256 100 64 = 128 :=
  (getNthreads_resolution 128 64 256 100 64).2.1 (by decide) (by decide)
    (by decide) (by decide)

/-- C6: `parseList` yields an all-enabled baseline with listed names
turned off when the string starts with `^` (marker stripped before
tokenizing), and an all-disabled baseline with listed names turned on
otherwise; comma-separated tokens are matched case-insensitively against
the vocabulary, unknown tokens are ignored, duplicates are idempotent
(membership depends only on whether some token matches); in particular
`parse("^a,b", {a,b,c}) = {0,0,1}` and `parse("a,b", {a,b,c}) = {1,1,0}`. -/
theorem parseList_membership :
    (∀ (str : List Char) (elems : List (List Char)),
      parseList str elems
        = elems.map (fun e =>
            if (strtokComma (if str.head? = some '^' then str.tail else str)).any
                (fun t => ciEq t e)
            then (if str.head? = some '^' then (0 : Int) else 1)
            else (if str.head? = some '^' then (1 : Int) else 0)))
  ∧ parseList ['^', 'a', ',', 'b'] [['a'], ['b'], ['c']] = [0, 0, 1]
  ∧ parseList ['a', ',', 'b'] [['a'], ['b'], ['c']] = [1, 1, 0]
  ∧ parseList ['l', 'l', '1', '2', '8'] ncclProtoStr = [0, 1, 0]
  ∧ parseList ['a', ',', 'a', ',', 'x'] [['a'], ['b'], ['c']] = [1, 0, 0] := by
  refine ⟨?_, by decide, by decide, by decide, by decide⟩
  intro str elems
  by_cases hn : str.head? = some '^'
  · rw [parseList, if_pos hn, foldl_parseListStep]
    simp [hn]
  · rw [parseList, if_neg hn, foldl_parseListStep]
    simp [hn]

/-- C7: for a single-member communicator the builder returns success
right after resolving the thread ceilings, leaving every bandwidth and
latency cell (and the thread thresholds) unchanged. -/
theorem setThresholds_single_member_frame (K : HwConsts) (env : TuningEnv)
    (minCompCap maxCompCap : Int) (tg rg cg : NcclTopoGraph)
    (comm : NcclComm) (h : comm.nRanks ≤ 1) :
    (ncclTopoSetThresholds K env minCompCap maxCompCap tg rg cg comm).1
        = ncclSuccess
  ∧ (ncclTopoSetThresholds K env minCompCap maxCompCap tg rg cg comm).2.bandwidths
        = comm.bandwidths
  ∧ (ncclTopoSetThresholds K env minCompCap maxCompCap tg rg cg comm).2.latencies
        = comm.latencies
  ∧ (ncclTopoSetThresholds K env minCompCap maxCompCap tg rg cg comm).2.threadThresholds
        = comm.threadThresholds
  ∧ (ncclTopoSetThresholds K env minCompCap maxCompCap tg rg cg comm).2.maxThreads
        = maxThreadsOf K env rg := by
  simp [ncclTopoSetThresholds, h]

/-- C7 witness: the one-rank sample communicator keeps its tables. -/
theorem setThresholds_single_member_frame_witness :
    (ncclTopoSetThresholds sampleConsts defaultEnv 70 70
        sampleGraph sampleGraph sampleGraph sampleComm1).2.bandwidths
      = sampleComm1.bandwidths
  ∧ (ncclTopoSetThresholds sampleConsts defaultEnv 70 70
        sampleGraph sampleGraph sampleGraph sampleComm1).2.latencies
      = sampleComm1.latencies :=
  ⟨(setThresholds_single_member_frame sampleConsts defaultEnv 70 70
      sampleGraph sampleGraph sampleGraph sampleComm1 (by decide)).2.1,
   (setThresholds_single_member_frame sampleConsts defaultEnv 70 70
      sampleGraph sampleGraph sampleGraph sampleComm1 (by decide)).2.2.1⟩

/-- C10: `ncclTopoGetAlgoTime` returns the success status for every
input; a zero bandwidth cell is signalled exclusively by the time
out-parameter being the negative sentinel -1. -/
theorem algoTime_status_always_success (comm : NcclComm) (coll : CollKind)
    (nBytes : Nat) (a : Algo) (p : Proto) :
    (ncclTopoGetAlgoTime comm coll nBytes a p).1 = ncclSuccess
  ∧ (comm.bandwidths coll a p = 0 →
      (ncclTopoGetAlgoTime comm coll nBytes a p).2 = -1
      ∧ (ncclTopoGetAlgoTime comm coll nBytes a p).2 < 0) := by
  constructor
  · simp only [ncclTopoGetAlgoTime]
    split_ifs <;> rfl
  · intro h
    have he : ncclTopoGetAlgoTime comm coll nBytes a p = (ncclSuccess, -1) := by
      simp [ncclTopoGetAlgoTime, h]
    rw [he]
    exact ⟨rfl, by norm_num⟩

/-- C10 witness: at a zeroed cell the status is success and the time is
the negative sentinel. -/
theorem algoTime_status_always_success_witness :
    (ncclTopoGetAlgoTime zeroBwComm ncclCollAllReduce 1024
        NCCL_ALGO_RING NCCL_PROTO_SIMPLE).1 = ncclSuccess
  ∧ (ncclTopoGetAlgoTime zeroBwComm ncclCollAllReduce 1024
        NCCL_ALGO_RING NCCL_PROTO_SIMPLE).2 = -1 :=
  ⟨(algoTime_status_always_success zeroBwComm ncclCollAllReduce 1024
      NCCL_ALGO_RING NCCL_PROTO_SIMPLE).1,
   ((algoTime_status_always_success zeroBwComm ncclCollAllReduce 1024
      NCCL_ALGO_RING NCCL_PROTO_SIMPLE).2 rfl).1⟩

/-- C2: whenever the looked-up bandwidth cell is exactly 0 the estimator
returns the sentinel with no further computation, and whenever it is
nonzero the divisor `1000 × correctedBw` used by the further computation
is nonzero — so no division by zero ever occurs. -/
theorem algoTime_zero_bandwidth_sentinel (comm : NcclComm) (coll : CollKind)
    (nBytes : Nat) (a : Algo) (p : Proto) :
    (comm.bandwidths coll a p = 0 →
      ncclTopoGetAlgoTime comm coll nBytes a p = (ncclSuccess, -1))
  ∧ (comm.bandwidths coll a p ≠ 0 →
      1000 * correctedBw (comm.bandwidths coll a p) a p nBytes ≠ 0) := by
  constructor
  · intro h
    simp [ncclTopoGetAlgoTime, h]
  · intro h
    exact mul_ne_zero (by norm_num) (correctedBw_ne_zero _ _ _ _ h)

/-- C2 witness: a zero cell yields the sentinel pair, and at bandwidth 1
the divisor is nonzero. -/
theorem algoTime_zero_bandwidth_sentinel_witness :
    ncclTopoGetAlgoTime zeroBwComm ncclCollBroadcast 4096
        NCCL_ALGO_TREE NCCL_PROTO_LL = (ncclSuccess, -1)
  ∧ 1000 * correctedBw (cexComm.bandwidths ncclCollBroadcast
        NCCL_ALGO_TREE NCCL_PROTO_LL) NCCL_ALGO_TREE NCCL_PROTO_LL 4096 ≠ 0 :=
  ⟨(algoTime_zero_bandwidth_sentinel zeroBwComm ncclCollBroadcast 4096
      NCCL_ALGO_TREE NCCL_PROTO_LL).1 rfl,
   (algoTime_zero_bandwidth_sentinel cexComm ncclCollBroadcast 4096
      NCCL_ALGO_TREE NCCL_PROTO_LL).2 (by norm_num [cexComm])⟩

/-- C3: with a nonzero bandwidth cell the estimator returns success and
exactly `latency + byteCount / (1000 × correctedBandwidth)`, where the
corrected bandwidth multiplies in the matching Tree or Ring table entry
when `sizeBucket = floor(log2(byteCount >> 6))` is below 22 and applies
no correction for CollNet or buckets ≥ 22. -/
theorem algoTime_formula (comm : NcclComm) (coll : CollKind) (nBytes : Nat)
    (a : Algo) (p : Proto) (h : comm.bandwidths coll a p ≠ 0) :
    ncclTopoGetAlgoTime comm coll nBytes a p
      = (ncclSuccess,
          comm.latencies coll a p
            + (nBytes : ℚ)
              / (1000 * specCorrectedBw (comm.bandwidths coll a p) a p nBytes)) := by
  simp [ncclTopoGetAlgoTime, h, correctedBw_eq_spec]

/-- C3 witness: the formula instantiated at bandwidth 1, latency 0,
8191 bytes, Ring/LL. -/
theorem algoTime_formula_witness :
    ncclTopoGetAlgoTime cexComm ncclCollAllReduce 8191
        NCCL_ALGO_RING NCCL_PROTO_LL
      = (ncclSuccess,
          cexComm.latencies ncclCollAllReduce NCCL_ALGO_RING NCCL_PROTO_LL
            + (8191 : ℚ)
              / (1000 * specCorrectedBw (cexComm.bandwidths ncclCollAllReduce
                  NCCL_ALGO_RING NCCL_PROTO_LL) NCCL_ALGO_RING NCCL_PROTO_LL 8191)) :=
  algoTime_formula cexComm ncclCollAllReduce 8191 NCCL_ALGO_RING NCCL_PROTO_LL
    (by norm_num [cexComm])

/-- C4 counterexample: with bandwidth 1 and latency 0 for Ring/LL on
AllReduce, the estimated time at 8192 bytes (bucket 7, factor .41) is
strictly below the estimated time at 8191 bytes (bucket 6, factor .25),
so `estimateTime` is not non-decreasing in byte count across bucket
boundaries. -/
theorem algoTime_not_monotone_cex :
    (8191 : Nat) ≤ 8192
  ∧ (ncclTopoGetAlgoTime cexComm ncclCollAllReduce 8192
        NCCL_ALGO_RING NCCL_PROTO_LL).2
      < (ncclTopoGetAlgoTime cexComm ncclCollAllReduce 8191
          NCCL_ALGO_RING NCCL_PROTO_LL).2 := by
  have e1 : (ncclTopoGetAlgoTime cexComm ncclCollAllReduce 8191
      NCCL_ALGO_RING NCCL_PROTO_LL).2 = 8191 / 250 := by
    norm_num [ncclTopoGetAlgoTime, cexComm, correctedBw, log2i, bucket8191,
      ringCorrectionFactor, ringCorrectionRows, NCCL_ALGO_RING, NCCL_ALGO_TREE,
      NCCL_PROTO_LL, ncclCollAllReduce]
  have e2 : (ncclTopoGetAlgoTime cexComm ncclCollAllReduce 8192
      NCCL_ALGO_RING NCCL_PROTO_LL).2 = 4096 / 205 := by
    norm_num [ncclTopoGetAlgoTime, cexComm, correctedBw, log2i, bucket8192,
      ringCorrectionFactor, ringCorrectionRows, NCCL_ALGO_RING, NCCL_ALGO_TREE,
      NCCL_PROTO_LL, ncclCollAllReduce]
  refine ⟨by norm_num, ?_⟩
  rw [e1, e2]
  norm_num

/-- C4 amended: for fixed kind, algorithm and protocol with positive
bandwidth, `estimateTime` is non-decreasing in byte count whenever the
two byte counts fall in the same size bucket, and whenever the smaller
one is already at or beyond bucket 22 (where the correction is constant);
across bucket boundaries below 22 it can decrease. -/
theorem algoTime_monotone_within_bucket (comm : NcclComm) (coll : CollKind)
    (a : Algo) (p : Proto) (n1 n2 : Nat)
    (hbw : 0 < comm.bandwidths coll a p) (h12 : n1 ≤ n2)
    (hb : Nat.log2 (n1 >>> 6) = Nat.log2 (n2 >>> 6) ∨ 22 ≤ Nat.log2 (n1 >>> 6)) :
    (ncclTopoGetAlgoTime comm coll n1 a p).2
      ≤ (ncclTopoGetAlgoTime comm coll n2 a p).2 := by
  have hne : comm.bandwidths coll a p ≠ 0 := ne_of_gt hbw
  have hcast : (n1 : ℚ) ≤ (n2 : ℚ) := by exact_mod_cast h12
  have hc : correctedBw (comm.bandwidths coll a p) a p n1
      = correctedBw (comm.bandwidths coll a p) a p n2 := by
    rcases hb with hb | hb
    · exact correctedBw_congr _ _ _ _ _ hb
    · have hb2 : 22 ≤ Nat.log2 (n2 >>> 6) := le_trans hb (sizeBucket_mono n1 n2 h12)
      rw [correctedBw_of_large_bucket _ _ _ _ hb,
        correctedBw_of_large_bucket _ _ _ _ hb2]
  have hD : 0 < 1000 * correctedBw (comm.bandwidths coll a p) a p n2 :=
    mul_pos (by norm_num) (correctedBw_pos _ _ _ _ hbw)
  simp only [ncclTopoGetAlgoTime, if_neg hne, hc]
  exact add_le_add_left ((div_le_div_iff_of_pos_right hD).mpr hcast) _

/-- C4 amended witness: 0 and 63 bytes share bucket 0, and the estimate
is non-decreasing between them. -/
theorem algoTime_monotone_within_bucket_witness :
    (ncclTopoGetAlgoTime cexComm ncclCollAllReduce 0
        NCCL_ALGO_RING NCCL_PROTO_LL).2
      ≤ (ncclTopoGetAlgoTime cexComm ncclCollAllReduce 63
          NCCL_ALGO_RING NCCL_PROTO_LL).2 :=
  algoTime_monotone_within_bucket cexComm ncclCollAllReduce
    NCCL_ALGO_RING NCCL_PROTO_LL 0 63 (by norm_num [cexComm]) (by decide)
    (Or.inl rfl)

/-- C8: for a multi-member communicator the builder's model loop
populates bandwidth cells exactly where the algorithm applies to the
kind (every algorithm for AllReduce, Ring alone for the rest; other
cells keep their previous value), using step count `2*(ranks-1)` for
AllReduce, `ranks-1` for ReduceScatter and AllGather, `ranks` otherwise,
and converting bus bandwidth to algorithm bandwidth by `ranks/nsteps`
for Ring and one half for every other algorithm; the builder's final
bandwidth table is the enable sweep applied to this model table. -/
theorem setThresholds_bandwidth_population (K : HwConsts) (env : TuningEnv)
    (minCompCap maxCompCap : Int) (tg rg cg : NcclTopoGraph)
    (comm : NcclComm) (h2 : 2 ≤ comm.nRanks) :
    ((ncclTopoSetThresholds K env minCompCap maxCompCap tg rg cg comm).2.bandwidths
        = enabledBandwidths K env minCompCap maxCompCap (graphsOf tg rg cg)
            (builtBandwidths comm.nRanks comm.nNodes (graphsOf tg rg cg)
              comm.bandwidths))
  ∧ (∀ coll a, algoApplies coll a ↔
      (coll = ncclCollAllReduce ∨ a = NCCL_ALGO_RING))
  ∧ (∀ coll a p, ¬ algoApplies coll a →
      builtBandwidths comm.nRanks comm.nNodes (graphsOf tg rg cg)
          comm.bandwidths coll a p
        = comm.bandwidths coll a p)
  ∧ (∀ coll a p, algoApplies coll a →
      builtBandwidths comm.nRanks comm.nNodes (graphsOf tg rg cg)
          comm.bandwidths coll a p
        = busBwOf comm.nNodes (graphsOf tg rg cg) coll a p
          * (if a = NCCL_ALGO_RING
             then (comm.nRanks : ℚ) / specNsteps comm.nRanks coll
             else 1 / 2)) := by
  have hn : ¬ comm.nRanks ≤ 1 := by omega
  refine ⟨?_, ?_, ?_, ?_⟩
  · simp [ncclTopoSetThresholds, hn]
  · intro coll a
    unfold algoApplies
    tauto
  · intro coll a p h
    simp [builtBandwidths, h]
  · intro coll a p h
    simp only [builtBandwidths]
    rw [if_pos h]
    by_cases ha : a = NCCL_ALGO_RING
    · simp [ratioOf, ha, nstepsOf_eq_spec]
    · simp [ratioOf, ha]

/-- C8 witness: the population equation instantiated on the four-rank
sample communicator. -/
theorem setThresholds_bandwidth_population_witness :
    (ncclTopoSetThresholds sampleConsts defaultEnv 70 70
        sampleGraph sampleGraph sampleGraph sampleComm4).2.bandwidths
      = enabledBandwidths sampleConsts defaultEnv 70 70
          (graphsOf sampleGraph sampleGraph sampleGraph)
          (builtBandwidths sampleComm4.nRanks sampleComm4.nNodes
            (graphsOf sampleGraph sampleGraph sampleGraph)
            sampleComm4.bandwidths) :=
  (setThresholds_bandwidth_population sampleConsts defaultEnv 70 70
    sampleGraph sampleGraph sampleGraph sampleComm4 (by decide)).1

/-- C9: after the builder runs on a multi-member communicator, a
protocol disabled for an algorithm — by the override list, or for LL128
by the auto-detect default resolving to 0 — or a disabled algorithm has
every one of its bandwidth cells forced to zero, and the estimator then
returns the sentinel for every such request; moreover with no protocol
override the LL128 auto-detect resolves to 0 whenever its condition
(inter-node class at most PCI, intra-node class NVLink, both
compute-capability bounds exactly 70) fails. -/
theorem setThresholds_disabled_zeroes_bandwidth (K : HwConsts)
    (env : TuningEnv) (minCompCap maxCompCap : Int)
    (tg rg cg : NcclTopoGraph) (comm : NcclComm) (a : Algo) (p : Proto)
    (h2 : 2 ≤ comm.nRanks)
    (hd : resolvedProtoEnable K env minCompCap maxCompCap
            (graphsOf tg rg cg) a p = 0
          ∨ algoEnableOf env a = 0) :
    (∀ coll, (ncclTopoSetThresholds K env minCompCap maxCompCap
        tg rg cg comm).2.bandwidths coll a p = 0)
  ∧ (∀ coll nBytes,
      ncclTopoGetAlgoTime (ncclTopoSetThresholds K env minCompCap maxCompCap
          tg rg cg comm).2 coll nBytes a p
        = (ncclSuccess, -1))
  ∧ (env.protoList = none →
      ¬((graphsOf tg rg cg a).typeInter ≤ K.linkPCI
        ∧ (graphsOf tg rg cg a).typeIntra = K.linkNVL
        ∧ minCompCap = 70 ∧ maxCompCap = 70) →
      resolvedProtoEnable K env minCompCap maxCompCap
          (graphsOf tg rg cg) a NCCL_PROTO_LL128 = 0) := by
  have hn : ¬ comm.nRanks ≤ 1 := by omega
  have hbz : ∀ coll, (ncclTopoSetThresholds K env minCompCap maxCompCap
      tg rg cg comm).2.bandwidths coll a p = 0 := by
    intro coll
    simp only [ncclTopoSetThresholds]
    rw [if_neg hn]
    simp [enabledBandwidths, hd]
  refine ⟨hbz, ?_, ?_⟩
  · intro coll nBytes
    simp [ncclTopoGetAlgoTime, hbz coll]
  · intro hnone hcond
    simp [resolvedProtoEnable, protoEnableOf, hnone, hcond, NCCL_PROTO_LL128]

/-- C9 witness: with the protocol override string `"^LL128"` on the
four-rank sample, the Tree/LL128 bandwidth cell is zero and the
estimator returns the sentinel for it. -/
theorem setThresholds_disabled_zeroes_bandwidth_witness :
    (ncclTopoSetThresholds sampleConsts envProtoNoLL128 70 70
        sampleGraph sampleGraph sampleGraph sampleComm4).2.bandwidths
      ncclCollAllReduce NCCL_ALGO_TREE NCCL_PROTO_LL128 = 0
  ∧ ncclTopoGetAlgoTime (ncclTopoSetThresholds sampleConsts envProtoNoLL128
        70 70 sampleGraph sampleGraph sampleGraph sampleComm4).2
      ncclCollAllReduce 1048576 NCCL_ALGO_TREE NCCL_PROTO_LL128
    = (ncclSuccess, -1) :=
  ⟨(setThresholds_disabled_zeroes_bandwidth sampleConsts envProtoNoLL128 70 70
      sampleGraph sampleGraph sampleGraph sampleComm4
      NCCL_ALGO_TREE NCCL_PROTO_LL128 (by decide)
      (Or.inl (by decide))).1 ncclCollAllReduce,
   (setThresholds_disabled_zeroes_bandwidth sampleConsts envProtoNoLL128 70 70
      sampleGraph sampleGraph sampleGraph sampleComm4
      NCCL_ALGO_TREE NCCL_PROTO_LL128 (by decide)
      (Or.inl (by decide))).2.1 ncclCollAllReduce 1048576⟩

/-- C1: evaluating the embedded builder with the thread-threshold
override string `"1000 2000 3000 4000 5000 6000"` shows Tree and Ring
receive 1000/2000/3000 and 4000/5000/6000 as the claim states, but the
CollNet row — whose `t` entries are zero-initialised because the source
initialises a 3-row array with two rows — is overwritten with 0 instead
of keeping its computed defaults 8/8/64 (scaled defaults for Ring/LL):
the code contradicts the claim's CollNet clause. -/
theorem collnet_thresholds_clobbered :
    overriddenComm.threadThresholds NCCL_ALGO_TREE NCCL_PROTO_LL = 1000
  ∧ overriddenComm.threadThresholds NCCL_ALGO_TREE NCCL_PROTO_LL128 = 2000
  ∧ overriddenComm.threadThresholds NCCL_ALGO_TREE NCCL_PROTO_SIMPLE = 3000
  ∧ overriddenComm.threadThresholds NCCL_ALGO_RING NCCL_PROTO_LL = 4000
  ∧ overriddenComm.threadThresholds NCCL_ALGO_RING NCCL_PROTO_LL128 = 5000
  ∧ overriddenComm.threadThresholds NCCL_ALGO_RING NCCL_PROTO_SIMPLE = 6000
  ∧ overriddenComm.threadThresholds NCCL_ALGO_COLLNET NCCL_PROTO_LL = 0
  ∧ overriddenComm.threadThresholds NCCL_ALGO_COLLNET NCCL_PROTO_LL128 = 0
  ∧ overriddenComm.threadThresholds NCCL_ALGO_COLLNET NCCL_PROTO_SIMPLE = 0
  ∧ defaultThreadThresholds sampleConsts sampleComm4.nRanks
      NCCL_ALGO_COLLNET NCCL_PROTO_LL = 8
  ∧ defaultThreadThresholds sampleConsts sampleComm4.nRanks
      NCCL_ALGO_COLLNET NCCL_PROTO_LL128 = 8
  ∧ defaultThreadThresholds sampleConsts sampleComm4.nRanks
      NCCL_ALGO_COLLNET NCCL_PROTO_SIMPLE = 64 := by
  decide

end Tuning
